import Mathlib

/-!
# Shallow embedding of the ml-agents SAC trainer and BC trainer

This file embeds, as executable Lean definitions, the bookkeeping logic of
`mlagents/trainers/sac/trainer.py` (experience accumulation, trajectory
flushing, the reward ledger, the update scheduler gate and the policy-update
loop) and of `mlagents/trainers/ppo/components/bc/trainer.py` (the inline
behavioral-cloning trainer), and proves the specification claims about them.

Modelling conventions:
* Python floats are modelled as rationals (`ℚ`); `np.mean([])`, which is NaN,
  is modelled as `none : Option ℚ`.
* Python dicts with default-zero access patterns are modelled as total
  functions or association lists, as noted at each definition.
* The embedding fixes a policy configuration with no visual observations and
  `use_recurrent = False`; the visual-observation and recurrent-memory code
  paths are orthogonal to every claim proved here.
* The `Buffer` class (`mlagents/trainers/buffer.py`) is not part of the given
  sources; its operations used by the trainer are modelled from the spec and
  carry a `Modelled from the spec:` doc comment.
-/

namespace SACModel

/-- Agent identifiers (`agent_id`). -/
abbrev AgentId := Nat

/-- One environment snapshot for all agents under a brain, mirroring the
`BrainInfo` constructor fields used by the trainer.  Visual observations and
recurrent memories are omitted (configuration with no camera and
`use_recurrent = False`). -/
structure BrainInfo where
  vector_observations : List ℚ
  text_observations : List String
  rewards : List ℚ
  agents : List AgentId
  local_done : List Bool
  previous_vector_actions : List ℚ
  previous_text_actions : List String
  max_reached : List Bool
  action_masks : List ℚ
deriving DecidableEq

/-- The outputs of the policy's `get_action`, as read by `add_experiences`.
The per-signal value-estimate dictionary is kept opaque as a single rational
payload (the trainer appends the whole dictionary unchanged). -/
structure TakeActionOutputs where
  action : List ℚ
  log_probs : List ℚ
  value : ℚ
  entropy : ℚ
  learning_rate : ℚ
deriving DecidableEq

/-- The per-field lists of a buffer (`Buffer.AgentBuffer`'s named fields as
used by this trainer).  The per-reward-signal fields `"<name>_rewards"` and
`"<name>_value_estimates"` are modelled as functions from the signal name. -/
structure FieldLists where
  vector_obs : List ℚ := []
  next_vector_in : List ℚ := []
  action_mask : List ℚ := []
  actions : List ℚ := []
  prev_action : List ℚ := []
  masks : List ℚ := []
  done : List Bool := []
  action_probs : List ℚ := []
  sig_rewards : String → List ℚ := fun _ => []
  sig_value_estimates : String → List ℚ := fun _ => []

/-- One agent's local buffer: its trajectory field lists plus the last
recorded snapshot and action outputs (`last_brain_info`,
`last_take_action_outputs`). -/
structure AgentBuffer where
  last_brain_info : Option BrainInfo := none
  last_take_action_outputs : Option TakeActionOutputs := none
  fields : FieldLists := {}

/-- The empty agent buffer; `Buffer.__getitem__` creates this on first access
and `reset_agent` restores it. -/
def emptyAgentBuffer : AgentBuffer := {}

/-- The trainer's `training_buffer`: per-agent local buffers plus the global
update buffer.  Agent lookup is create-on-first-access, modelled as a total
function defaulting to `emptyAgentBuffer`. -/
structure TrainingBuffer where
  local_buffers : AgentId → AgentBuffer
  update_buffer : FieldLists

/-- The hyperparameters of `trainer_parameters` read by the embedded code. -/
structure TrainerParams where
  batch_size : Nat
  buffer_size : Nat
  buffer_init_steps : Nat
  time_horizon : Nat
  num_epoch : Nat
  train_interval : Nat
  target_update_steps : Nat
deriving DecidableEq

/-- The policy attributes read by the trainer. -/
structure PolicyConfig where
  use_vec_obs : Bool
  use_continuous_act : Bool
  sequence_length : Nat
deriving DecidableEq

/-- One registered reward signal: its name, the stats keys it reports under,
and its `evaluate(curr, next) -> (scaled, unscaled)` collaborator. -/
structure RewardSignal where
  name : String
  value_name : String
  stat_name : String
  evaluate : BrainInfo → BrainInfo → List ℚ × List ℚ

/-- The trainer's mutable state.  `stats` is the `defaultdict(list)` of
reporting lists (entries are `Option ℚ` so that NaN means can be recorded);
`collected_rewards` is the reward ledger, a dict from signal name to a
default-zero per-agent cumulative reward; `reward_buffer` is the
`deque(maxlen=reward_buff_cap)` with its most recent entry first. -/
structure TrainerState where
  step : Nat
  stats : List (String × List (Option ℚ))
  collected_rewards : List (String × (AgentId → ℚ))
  training_buffer : TrainingBuffer
  reward_buff_cap : Nat
  reward_buffer : List ℚ
  episode_steps : AgentId → Nat
  cumulative_returns_since_policy_update : List ℚ

/-- Append `v` to `stats[k]` (`defaultdict(list)` semantics: a missing key is
created holding the one-element list). -/
def statsAppend (s : List (String × List (Option ℚ))) (k : String) (v : Option ℚ) :
    List (String × List (Option ℚ)) :=
  if s.any (fun p => p.1 = k) then
    s.map (fun p => if p.1 = k then (p.1, p.2 ++ [v]) else p)
  else s ++ [(k, [v])]

/-- Look up the reporting list recorded under key `k`. -/
def statsLookup (s : List (String × List (Option ℚ))) (k : String) :
    Option (List (Option ℚ)) :=
  (s.find? (fun p => p.1 = k)).map (fun p => p.2)

/-- Look up one signal's per-agent cumulative-reward dict in the ledger
(`collected_rewards[name]`; absent agents read as 0, matching the
`rewards.get(agent_id, 0)` access pattern). -/
def ledgerLookup (cr : List (String × (AgentId → ℚ))) (name : String) : AgentId → ℚ :=
  match cr.find? (fun p => p.1 = name) with
  | some p => p.2
  | none => fun _ => 0

/-- Set `collected_rewards[name][a] := v`. -/
def ledgerSet (cr : List (String × (AgentId → ℚ))) (name : String) (a : AgentId) (v : ℚ) :
    List (String × (AgentId → ℚ)) :=
  cr.map (fun p =>
    if p.1 = name then (p.1, fun b => if b = a then v else p.2 b) else p)

/-- `deque(maxlen=cap).appendleft v`: the new element becomes the most recent
(head) entry and the oldest entry is evicted when the deque is full. -/
def dequeAppendLeft (cap : Nat) (v : ℚ) (l : List ℚ) : List ℚ :=
  (v :: l).take cap

/-- The mean of a list of rationals, `none` for the empty list (Python's
`np.mean([])` is NaN). -/
def meanOpt (l : List ℚ) : Option ℚ :=
  if l.isEmpty then none else some (l.sum / (l.length : ℚ))

/-- Modelled from the spec: the slicing performed by
`Buffer.append_update_buffer` (source file `mlagents/trainers/buffer.py`, not
among the given sources).  A trajectory field is cut into contiguous windows
of `training_length` entries; the partial trailing window is dropped, so the
first `(len / training_length) * training_length` entries are kept. -/
def sliceForFlush (training_length : Nat) (l : List α) : List α :=
  l.take ((l.length / training_length) * training_length)

/-- Modelled from the spec: `Buffer.append_update_buffer(agent_id,
batch_size=None, training_length=L)` (not among the given sources) extends
every field of the update buffer with the agent's corresponding trajectory
field, sliced into `training_length`-sized windows in temporal order. -/
def append_update_buffer (ub : FieldLists) (traj : FieldLists) (training_length : Nat) :
    FieldLists :=
  { vector_obs := ub.vector_obs ++ sliceForFlush training_length traj.vector_obs
    next_vector_in := ub.next_vector_in ++ sliceForFlush training_length traj.next_vector_in
    action_mask := ub.action_mask ++ sliceForFlush training_length traj.action_mask
    actions := ub.actions ++ sliceForFlush training_length traj.actions
    prev_action := ub.prev_action ++ sliceForFlush training_length traj.prev_action
    masks := ub.masks ++ sliceForFlush training_length traj.masks
    done := ub.done ++ sliceForFlush training_length traj.done
    action_probs := ub.action_probs ++ sliceForFlush training_length traj.action_probs
    sig_rewards := fun n => ub.sig_rewards n ++ sliceForFlush training_length (traj.sig_rewards n)
    sig_value_estimates := fun n =>
      ub.sig_value_estimates n ++ sliceForFlush training_length (traj.sig_value_estimates n) }

/-- Modelled from the spec: `Buffer.truncate_update_buffer(max_length)` (not
among the given sources) keeps the most recently appended `max_length` entries
of every field, evicting the oldest and preserving the temporal order of the
remainder. -/
def truncate_update_buffer (ub : FieldLists) (max_length : Nat) : FieldLists :=
  { vector_obs := ub.vector_obs.drop (ub.vector_obs.length - max_length)
    next_vector_in := ub.next_vector_in.drop (ub.next_vector_in.length - max_length)
    action_mask := ub.action_mask.drop (ub.action_mask.length - max_length)
    actions := ub.actions.drop (ub.actions.length - max_length)
    prev_action := ub.prev_action.drop (ub.prev_action.length - max_length)
    masks := ub.masks.drop (ub.masks.length - max_length)
    done := ub.done.drop (ub.done.length - max_length)
    action_probs := ub.action_probs.drop (ub.action_probs.length - max_length)
    sig_rewards := fun n => (ub.sig_rewards n).drop ((ub.sig_rewards n).length - max_length)
    sig_value_estimates := fun n =>
      (ub.sig_value_estimates n).drop ((ub.sig_value_estimates n).length - max_length) }

/-- The scheduling-level error of mini-batch sampling. -/
inductive SampleError where
  | insufficientData
deriving DecidableEq

/-- Take the first `n` entries of every field. -/
def takeFields (n : Nat) (ub : FieldLists) : FieldLists :=
  { vector_obs := ub.vector_obs.take n
    next_vector_in := ub.next_vector_in.take n
    action_mask := ub.action_mask.take n
    actions := ub.actions.take n
    prev_action := ub.prev_action.take n
    masks := ub.masks.take n
    done := ub.done.take n
    action_probs := ub.action_probs.take n
    sig_rewards := fun na => (ub.sig_rewards na).take n
    sig_value_estimates := fun na => (ub.sig_value_estimates na).take n }

/-- Modelled from the spec: `Buffer.sample_mini_batch(size)` (not among the
given sources) fails with `InsufficientDataError` when `size` exceeds the
current buffer length and otherwise returns `size` entries, each buffer index
used at most once; the random index choice is modelled deterministically as
the first `size` entries. -/
def sample_mini_batch (ub : FieldLists) (size : Nat) : Except SampleError FieldLists :=
  if ub.actions.length < size then Except.error SampleError.insufficientData
  else Except.ok (takeFields size ub)

/-- The last recorded snapshot consulted by `construct_curr_info`:
`training_buffer[agent_id].last_brain_info`, falling back to `next_info`
itself when no snapshot was ever recorded for the agent. -/
def lookupLastSnapshot (tb : AgentId → AgentBuffer) (next_info : BrainInfo)
    (agent_id : AgentId) : BrainInfo :=
  match (tb agent_id).last_brain_info with
  | some bi => bi
  | none => next_info

/-- The per-agent entry of a snapshot at position `i`, one value per
constructor field (`agent_brain_info.<field>[agent_index]`). -/
structure AgentSlice where
  vector_observation : ℚ
  text_observation : String
  reward : ℚ
  agent : AgentId
  loc_done : Bool
  previous_vector_action : ℚ
  previous_text_action : String
  max_reach : Bool
  mask_of_action : ℚ
deriving DecidableEq

/-- Read one agent's entry out of a snapshot at index `i` (out-of-range reads
yield the stated defaults; they do not occur in the trainer's normal flow,
where every looked-up agent is present in its recorded snapshot). -/
def sliceAt (bi : BrainInfo) (i : Nat) : AgentSlice :=
  { vector_observation := bi.vector_observations.getD i 0
    text_observation := bi.text_observations.getD i ""
    reward := bi.rewards.getD i 0
    agent := bi.agents.getD i 0
    loc_done := bi.local_done.getD i false
    previous_vector_action := bi.previous_vector_actions.getD i 0
    previous_text_action := bi.previous_text_actions.getD i ""
    max_reach := bi.max_reached.getD i false
    mask_of_action := bi.action_masks.getD i 0 }

/-- `construct_curr_info(next_info)`: builds, field by field, a synthetic
current snapshot holding, for each agent of `next_info` in order, that
agent's entry from its last recorded snapshot (or from `next_info` itself
when none was recorded), read at the agent's index in that snapshot. -/
def construct_curr_info (tb : AgentId → AgentBuffer) (next_info : BrainInfo) : BrainInfo :=
  let slices := next_info.agents.map (fun a =>
    let abi := lookupLastSnapshot tb next_info a
    sliceAt abi (abi.agents.indexOf a))
  { vector_observations := slices.map (fun s => s.vector_observation)
    text_observations := slices.map (fun s => s.text_observation)
    rewards := slices.map (fun s => s.reward)
    agents := slices.map (fun s => s.agent)
    local_done := slices.map (fun s => s.loc_done)
    previous_vector_actions := slices.map (fun s => s.previous_vector_action)
    previous_text_actions := slices.map (fun s => s.previous_text_action)
    max_reached := slices.map (fun s => s.max_reach)
    action_masks := slices.map (fun s => s.mask_of_action) }

/-- The snapshot `add_experiences` evaluates reward signals against: the
current snapshot when the agent lists agree, the reconstructed one
otherwise. -/
def currToUse (tb : AgentId → AgentBuffer) (curr_info next_info : BrainInfo) : BrainInfo :=
  if curr_info.agents ≠ next_info.agents then construct_curr_info tb next_info
  else curr_info

/-- `tmp_rewards_dict`: the map from each registered signal name to that
signal's `(scaled, unscaled)` evaluation on the snapshot pair. -/
def evalSignals (sigs : List RewardSignal) (curr next : BrainInfo) :
    String → List ℚ × List ℚ :=
  fun n =>
    match sigs.find? (fun s => s.name = n) with
    | some s => s.evaluate curr next
    | none => ([], [])

/-- The reporting appends at the top of `add_experiences` (entropy, learning
rate and, for every signal whose value stat was reported before, the value
payload). -/
def addStatsPhase (sigs : List RewardSignal) (tao : TakeActionOutputs)
    (st : TrainerState) : TrainerState :=
  let st := { st with stats := statsAppend st.stats "Policy/Entropy" (some tao.entropy) }
  let st := { st with
    stats := statsAppend st.stats "Policy/Learning Rate" (some tao.learning_rate) }
  sigs.foldl
    (fun s sig =>
      if s.stats.any (fun p => p.1 = sig.value_name) then
        { s with stats := statsAppend s.stats sig.value_name (some tao.value) }
      else s)
    st

/-- The first loop of `add_experiences`: every agent of the current snapshot
gets `curr_info` and the action outputs recorded as its last snapshot pair. -/
def recordPhase (curr_info : BrainInfo) (tao : TakeActionOutputs)
    (st : TrainerState) : TrainerState :=
  { st with training_buffer := { st.training_buffer with
      local_buffers := fun a =>
        if a ∈ curr_info.agents then
          { st.training_buffer.local_buffers a with
            last_brain_info := some curr_info
            last_take_action_outputs := some tao }
        else st.training_buffer.local_buffers a } }

/-- The appends into one agent's trajectory performed by the not-yet-done
branch of `add_experiences` (one new entry per recorded field; the `done`
flag is read at the stored index `idx`, as in the source, which asserts
`idx == next_idx`). -/
def appendTransition (cfg : PolicyConfig) (sigNames : List String)
    (tmp : String → List ℚ × List ℚ) (next_info stored_info : BrainInfo)
    (tao : TakeActionOutputs) (idx next_idx : Nat) (fl : FieldLists) : FieldLists :=
  { vector_obs :=
      if cfg.use_vec_obs then fl.vector_obs ++ [stored_info.vector_observations.getD idx 0]
      else fl.vector_obs
    next_vector_in :=
      if cfg.use_vec_obs then
        fl.next_vector_in ++ [next_info.vector_observations.getD next_idx 0]
      else fl.next_vector_in
    action_mask :=
      if cfg.use_continuous_act then fl.action_mask
      else fl.action_mask ++ [stored_info.action_masks.getD idx 0]
    actions := fl.actions ++ [tao.action.getD idx 0]
    prev_action := fl.prev_action ++ [stored_info.previous_vector_actions.getD idx 0]
    masks := fl.masks ++ [1]
    done := fl.done ++ [next_info.local_done.getD idx false]
    action_probs := fl.action_probs ++ [tao.log_probs.getD idx 0]
    sig_rewards := fun n =>
      if sigNames.contains n then fl.sig_rewards n ++ [(tmp n).1.getD next_idx 0]
      else fl.sig_rewards n
    sig_value_estimates := fun n =>
      if sigNames.contains n then fl.sig_value_estimates n ++ [tao.value]
      else fl.sig_value_estimates n }

/-- The ledger increments of `add_experiences`: each `collected_rewards`
entry adds, for this agent, the raw environment reward for the
`"environment"` signal and the scaled signal reward otherwise. -/
def ledgerAccumulate (tmp : String → List ℚ × List ℚ) (next_info : BrainInfo)
    (agent_id : AgentId) (next_idx : Nat) (cr : List (String × (AgentId → ℚ))) :
    List (String × (AgentId → ℚ)) :=
  cr.map (fun p =>
    (p.1, fun b =>
      if b = agent_id then
        p.2 b +
          (if p.1 = "environment" then next_info.rewards.getD next_idx 0
           else (tmp p.1).1.getD next_idx 0)
      else p.2 b))

/-- The body of the per-agent loop of `add_experiences`.  When the stored
snapshot is missing, nothing happens; when it marks the agent done, no field
is appended and no ledger entry is incremented; otherwise a transition is
appended and the ledger accumulates.  `episode_steps` is incremented whenever
the next snapshot does not mark the agent done. -/
def addExperienceForAgent (cfg : PolicyConfig) (sigNames : List String)
    (tmp : String → List ℚ × List ℚ) (next_info : BrainInfo)
    (st : TrainerState) (agent_id : AgentId) : TrainerState :=
  let ab := st.training_buffer.local_buffers agent_id
  match ab.last_brain_info with
  | none => st
  | some stored_info =>
    let idx := stored_info.agents.indexOf agent_id
    let next_idx := next_info.agents.indexOf agent_id
    let st1 :=
      if stored_info.local_done.getD idx false then st
      else
        match ab.last_take_action_outputs with
        | none => st
        | some tao =>
          { st with
            training_buffer := { st.training_buffer with
              local_buffers := fun b =>
                if b = agent_id then
                  { ab with
                    fields := appendTransition cfg sigNames tmp next_info stored_info
                      tao idx next_idx ab.fields }
                else st.training_buffer.local_buffers b }
            collected_rewards :=
              ledgerAccumulate tmp next_info agent_id next_idx st.collected_rewards }
    if next_info.local_done.getD next_idx false then st1
    else
      { st1 with episode_steps := fun b =>
          if b = agent_id then st1.episode_steps b + 1 else st1.episode_steps b }

/-- `add_experiences(curr_all_info, next_all_info, take_action_outputs)`,
restricted to the trainer's own brain: report stats, record the last snapshot
pair for every current agent, pick the current snapshot to evaluate signals
against, evaluate every registered signal, then run the per-agent loop over
the next snapshot's agents. -/
def add_experiences (cfg : PolicyConfig) (sigs : List RewardSignal)
    (st : TrainerState) (curr_info next_info : BrainInfo)
    (tao : TakeActionOutputs) : TrainerState :=
  let st1 := recordPhase curr_info tao (addStatsPhase sigs tao st)
  let tmp := evalSignals sigs
    (currToUse st1.training_buffer.local_buffers curr_info next_info) next_info
  next_info.agents.foldl
    (addExperienceForAgent cfg (sigs.map (fun s => s.name)) tmp next_info) st1

/-- The ledger flush performed for one signal name when an agent's episode
completes in `process_experiences`.  For `"environment"` the ledger value is
appended to the reporting accumulator and the cumulative-reward stat, then
the ledger entry is zeroed, and only then is `rewards.get(agent_id, 0)` (the
already-zeroed value) pushed onto `reward_buffer` — mirroring the source's
statement order.  Every other signal reports its ledger value under the
signal's stat name and zeroes the entry. -/
def flushLedgerOnDone (sigs : List RewardSignal) (agent_id : AgentId)
    (st : TrainerState) (name : String) : TrainerState :=
  let rewards := ledgerLookup st.collected_rewards name
  if name = "environment" then
    let st := { st with cumulative_returns_since_policy_update :=
        st.cumulative_returns_since_policy_update ++ [rewards agent_id] }
    let st := { st with
      stats := statsAppend st.stats "Environment/Cumulative Reward" (some (rewards agent_id)) }
    let st := { st with collected_rewards := ledgerSet st.collected_rewards name agent_id 0 }
    let pushed := ledgerLookup st.collected_rewards name agent_id
    { st with reward_buffer := dequeAppendLeft st.reward_buff_cap pushed st.reward_buffer }
  else
    let stat_name :=
      match sigs.find? (fun s => s.name = name) with
      | some s => s.stat_name
      | none => ""
    let st := { st with stats := statsAppend st.stats stat_name (some (rewards agent_id)) }
    { st with collected_rewards := ledgerSet st.collected_rewards name agent_id 0 }

/-- The body of `process_experiences`' loop at index `l` of the next
snapshot's agent list: when the agent is done or its recorded action count
exceeds `time_horizon`, and that count is positive, the trajectory is flushed
into the update buffer and the agent's local buffer is reset; when the agent
is moreover done, its episode length is reported and every ledger entry for
it is flushed. -/
def processAgentExperience (params : TrainerParams) (cfg : PolicyConfig)
    (sigs : List RewardSignal) (info : BrainInfo) (st : TrainerState) (l : Nat) :
    TrainerState :=
  let agent_id := info.agents.getD l 0
  let agent_actions := (st.training_buffer.local_buffers agent_id).fields.actions
  if (info.local_done.getD l false || decide (params.time_horizon < agent_actions.length))
      && decide (0 < agent_actions.length) then
    let tb := st.training_buffer
    let st := { st with training_buffer :=
        { local_buffers := fun b => if b = agent_id then emptyAgentBuffer else tb.local_buffers b
          update_buffer :=
            append_update_buffer tb.update_buffer (tb.local_buffers agent_id).fields
              cfg.sequence_length } }
    if info.local_done.getD l false then
      let st := { st with
        stats := statsAppend st.stats "Environment/Episode Length"
          (some ((st.episode_steps agent_id : ℚ)))
        episode_steps := fun b => if b = agent_id then 0 else st.episode_steps b }
      (st.collected_rewards.map (fun p => p.1)).foldl (flushLedgerOnDone sigs agent_id) st
    else st
  else st

/-- `process_experiences(current_info, new_info)`, restricted to the
trainer's own brain: the per-agent flush check over every index of the next
snapshot's agent list. -/
def process_experiences (params : TrainerParams) (cfg : PolicyConfig)
    (sigs : List RewardSignal) (st : TrainerState) (info : BrainInfo) : TrainerState :=
  (List.range info.agents.length).foldl (processAgentExperience params cfg sigs info) st

/-- `is_ready_update()`: the update buffer holds at least `batch_size`
actions, the step count is a multiple of `train_interval`, and the step count
has reached `buffer_init_steps`. -/
def is_ready_update (params : TrainerParams) (st : TrainerState) : Bool :=
  decide (params.batch_size ≤ st.training_buffer.update_buffer.actions.length)
    && decide (st.step % params.train_interval = 0)
    && decide (params.buffer_init_steps ≤ st.step)

/-- The scalar losses returned by one `policy.update` call. -/
structure PolicyUpdateResult where
  value_loss : ℚ
  policy_loss : ℚ
  q1_loss : ℚ
  q2_loss : ℚ
  entropy_coef : ℚ
deriving DecidableEq

/-- The five loss accumulators of `update_policy` (the unused
`forward_total`/`inverse_total` lists of the source are omitted: nothing is
ever appended to them). -/
structure LossLists where
  value_total : List ℚ := []
  policy_total : List ℚ := []
  q1loss_total : List ℚ := []
  q2loss_total : List ℚ := []
  entcoeff_total : List ℚ := []
deriving DecidableEq

/-- Append one round's returned losses to the accumulators. -/
def pushLosses (r : PolicyUpdateResult) (ls : LossLists) : LossLists :=
  { value_total := ls.value_total ++ [r.value_loss]
    policy_total := ls.policy_total ++ [r.policy_loss]
    q1loss_total := ls.q1loss_total ++ [r.q1_loss]
    q2loss_total := ls.q2loss_total ++ [r.q2_loss]
    entcoeff_total := ls.entcoeff_total ++ [r.entropy_coef] }

/-- `n_sequences = max(int(batch_size / sequence_length), 1)`. -/
def n_sequences (params : TrainerParams) (cfg : PolicyConfig) : Nat :=
  max (params.batch_size / cfg.sequence_length) 1

/-- The `num_epoch` update rounds of `update_policy`, threading the loss
accumulators and a count of optimizer invocations.  A round runs only when
the update buffer holds at least `batch_size` actions; nothing in a round
mutates the trainer state, so every round sees the same buffer. -/
def update_rounds (params : TrainerParams) (cfg : PolicyConfig)
    (policyUpdate : FieldLists → Nat → Bool → PolicyUpdateResult)
    (st : TrainerState) : Nat → LossLists × Nat → Except SampleError (LossLists × Nat)
  | 0, acc => Except.ok acc
  | n + 1, acc =>
    if params.batch_size ≤ st.training_buffer.update_buffer.actions.length then
      match sample_mini_batch st.training_buffer.update_buffer params.batch_size with
      | Except.error e => Except.error e
      | Except.ok mb =>
        let r := policyUpdate mb (n_sequences params cfg)
          (decide (st.step % params.target_update_steps = 0))
        update_rounds params cfg policyUpdate st n (pushLosses r acc.1, acc.2 + 1)
    else update_rounds params cfg policyUpdate st n acc

/-- The tail of `update_policy` after the update rounds: truncate the update
buffer to `int(buffer_size * 0.8)` entries whenever its length exceeds
`buffer_size` (the float product agrees with `buffer_size * 8 / 10` in
natural-number arithmetic on the representable range); report the mean of
each loss list; then let each reward signal run its own update
(`signalUpdate`, a pure oracle for `reward_signal.update`, which reports
stats and does not mutate the buffer) and report its stats. -/
def updatePost (params : TrainerParams) (sigs : List RewardSignal)
    (signalUpdate : String → List (String × ℚ)) (losses : LossLists)
    (st : TrainerState) : TrainerState :=
  let ub := st.training_buffer.update_buffer
  let ub :=
    if params.buffer_size < ub.actions.length then
      truncate_update_buffer ub (params.buffer_size * 8 / 10)
    else ub
  let st := { st with training_buffer := { st.training_buffer with update_buffer := ub } }
  let st := { st with stats := statsAppend st.stats "Losses/Value Loss" (meanOpt losses.value_total) }
  let st := { st with stats := statsAppend st.stats "Losses/Policy Loss" (meanOpt losses.policy_total) }
  let st := { st with stats := statsAppend st.stats "Losses/Q1 Loss" (meanOpt losses.q1loss_total) }
  let st := { st with stats := statsAppend st.stats "Losses/Q2 Loss" (meanOpt losses.q2loss_total) }
  let st := { st with stats := statsAppend st.stats "Policy/Entropy Coeff" (meanOpt losses.entcoeff_total) }
  sigs.foldl
    (fun s sig =>
      (signalUpdate sig.name).foldl
        (fun s2 p => { s2 with stats := statsAppend s2.stats p.1 (some p.2) }) s)
    st

/-- `update_policy()`: run the `num_epoch` update rounds, then the buffer
truncation and loss/signal reporting of `updatePost`.  The external
collaborator `policy.update` is passed in as a pure oracle; the returned
number counts its invocations. -/
def update_policy (params : TrainerParams) (cfg : PolicyConfig)
    (policyUpdate : FieldLists → Nat → Bool → PolicyUpdateResult)
    (sigs : List RewardSignal) (signalUpdate : String → List (String × ℚ))
    (st : TrainerState) : Except SampleError (TrainerState × Nat) :=
  match update_rounds params cfg policyUpdate st params.num_epoch ({}, 0) with
  | Except.error e => Except.error e
  | Except.ok (losses, calls) =>
    Except.ok (updatePost params sigs signalUpdate losses st, calls)

/-- The five loss stat keys written by `update_policy`. -/
def lossStatKeys : List String :=
  ["Losses/Value Loss", "Losses/Policy Loss", "Losses/Q1 Loss", "Losses/Q2 Loss",
   "Policy/Entropy Coeff"]

/-- The `"demo_aided"` sub-dictionary of `trainer_parameters`; each key may
be present or missing. -/
structure DemoAided where
  demo_path : Option String
  demo_strength : Option ℚ
  demo_steps : Option Nat
deriving DecidableEq

/-- The configuration error raised by the trainer. -/
inductive UnityTrainerException where
  | demoKeysMissing
deriving DecidableEq

/-- `check_demo_keys(trainer_parameters)`: when `"demo_aided"` is present but
any of `"demo_path"`, `"demo_strength"`, `"demo_steps"` is missing from it,
raise `UnityTrainerException`; otherwise do nothing.  The argument is the
optional `"demo_aided"` entry of `trainer_parameters`. -/
def check_demo_keys (demo_aided : Option DemoAided) :
    Except UnityTrainerException Unit :=
  match demo_aided with
  | none => Except.ok ()
  | some d =>
    if d.demo_path.isNone || d.demo_strength.isNone || d.demo_steps.isNone then
      Except.error UnityTrainerException.demoKeysMissing
    else Except.ok ()

/-- `SACTrainer.__init__`, reduced to the state this embedding tracks: the
construction-time `check_demo_keys` gate followed by the initial state
(step 0, empty stats and buffers, a zero ledger entry for `"environment"` and
for every registered signal name, an empty reward history of capacity
`reward_buff_cap`). -/
def trainerInit (reward_buff_cap : Nat) (sigNames : List String)
    (demo_aided : Option DemoAided) : Except UnityTrainerException TrainerState :=
  match check_demo_keys demo_aided with
  | Except.error e => Except.error e
  | Except.ok _ =>
    Except.ok
      { step := 0
        stats := []
        collected_rewards :=
          ("environment", fun _ => 0) :: sigNames.map (fun n => (n, fun _ => 0))
        training_buffer := { local_buffers := fun _ => emptyAgentBuffer, update_buffer := {} }
        reward_buff_cap := reward_buff_cap
        reward_buffer := []
        episode_steps := fun _ => 0
        cumulative_returns_since_policy_update := [] }

end SACModel

namespace BC

/-- The snapshot fields read by `BCTrainer.evaluate`. -/
structure BrainInfo where
  rewards : List ℚ
deriving DecidableEq

set_option linter.unusedVariables false in
/-- `BCTrainer.evaluate(current_info, next_info)`: the unscaled reward is the
next snapshot's reward vector and the scaled reward is `0.0` times it. -/
def evaluate (current_info next_info : BrainInfo) : List ℚ × List ℚ :=
  let unscaled_reward := next_info.rewards
  let scaled_reward := unscaled_reward.map (fun r => 0 * r)
  (scaled_reward, unscaled_reward)

/-- The BC trainer's state tracked by this embedding: the current learning
rate, the demonstration buffer's update-buffer contents (its `"actions"`
field stands for the per-field lists, which `shuffle` and `make_mini_batch`
treat uniformly), `n_sequences`, and the `has_updated` flag. -/
structure BCState where
  current_lr : ℚ
  demonstration_buffer : List ℚ
  n_sequences : Nat
  has_updated : Bool
deriving DecidableEq

/-- What one `BCTrainer.update` call did: its return value (`none` models
NaN), the post-call trainer state, and how many buffer shuffles and
`_update_batch` model updates it performed. -/
structure UpdateTrace where
  ret : Option ℚ
  state : BCState
  shuffles : Nat
  batch_updates : Nat

/-- The mutable data threaded through `update`'s epoch/batch loops. -/
structure BCLoopState where
  buffer : List ℚ
  lr : ℚ
  batch_losses : List ℚ
  shuffles : Nat
  batch_updates : Nat

/-- One inner-loop iteration of `update`: slice the demonstration buffer into
the `i`-th mini-batch, run `_update_batch` (the `upd` oracle, returning the
loss and the annealed learning rate), record the loss and the new learning
rate. -/
def bcBatchStep (upd : List ℚ → Nat → ℚ × ℚ) (n_seq : Nat)
    (ls : BCLoopState) (i : Nat) : BCLoopState :=
  let mini_batch_demo := (ls.buffer.drop (i * n_seq)).take n_seq
  let run_out := upd mini_batch_demo n_seq
  { ls with
    lr := run_out.2
    batch_losses := ls.batch_losses ++ [run_out.1]
    batch_updates := ls.batch_updates + 1 }

/-- One epoch of `update`: shuffle the demonstration buffer (the `shuffle`
oracle is an arbitrary reordering), then run `num_batches` batch steps. -/
def bcEpoch (upd : List ℚ → Nat → ℚ × ℚ) (shuffle : List ℚ → List ℚ)
    (n_seq num_batches : Nat) (ls : BCLoopState) : BCLoopState :=
  let ls := { ls with buffer := shuffle ls.buffer, shuffles := ls.shuffles + 1 }
  (List.range num_batches).foldl (bcBatchStep upd n_seq) ls

/-- `BCTrainer.update(policy_buffer, max_batches)`.  When the current
learning rate is at or below zero the call returns `0` at once; otherwise it
runs three epochs of shuffled mini-batch updates, sets `has_updated`, and
returns the mean batch loss (`none`, i.e. NaN, when no batch ran). -/
def update (upd : List ℚ → Nat → ℚ × ℚ) (shuffle : List ℚ → List ℚ)
    (st : BCState) (max_batches : Nat) : UpdateTrace :=
  if st.current_lr ≤ 0 then
    { ret := some 0, state := st, shuffles := 0, batch_updates := 0 }
  else
    let possible_demo_batches := st.demonstration_buffer.length / st.n_sequences
    let possible_batches := possible_demo_batches
    let num_batches := if max_batches = 0 then possible_batches
      else min possible_batches max_batches
    let ls0 : BCLoopState :=
      { buffer := st.demonstration_buffer, lr := st.current_lr, batch_losses := []
        shuffles := 0, batch_updates := 0 }
    let ls := (List.range 3).foldl
      (fun l _ => bcEpoch upd shuffle st.n_sequences num_batches l) ls0
    { ret := SACModel.meanOpt ls.batch_losses
      state := { st with
        current_lr := ls.lr
        demonstration_buffer := ls.buffer
        has_updated := true }
      shuffles := ls.shuffles
      batch_updates := ls.batch_updates }

end BC

namespace SACModel

/-! ### Concrete instances used by the witnesses -/

/-- A concrete hyperparameter set with the values of the C2 scenario
(`batch_size = 4`, `buffer_init_steps = 0`, `train_interval = 1`). -/
def demoParams : TrainerParams :=
  { batch_size := 4, buffer_size := 100, buffer_init_steps := 0, time_horizon := 5
    num_epoch := 3, train_interval := 1, target_update_steps := 2 }

/-- A concrete non-recurrent continuous-control policy configuration. -/
def demoCfg : PolicyConfig :=
  { use_vec_obs := true, use_continuous_act := true, sequence_length := 1 }

/-- A trainer state at step `n` whose update buffer holds the given actions
and whose other components are empty. -/
def stateAtStep (n : Nat) (acts : List ℚ) : TrainerState :=
  { step := n
    stats := []
    collected_rewards := []
    training_buffer :=
      { local_buffers := fun _ => emptyAgentBuffer, update_buffer := { actions := acts } }
    reward_buff_cap := 10
    reward_buffer := []
    episode_steps := fun _ => 0
    cumulative_returns_since_policy_update := [] }

/-- A one-agent snapshot marking agent 7 done with zero environment reward. -/
def doneInfo7 : BrainInfo :=
  { vector_observations := [0], text_observations := [""], rewards := [0]
    agents := [7], local_done := [true], previous_vector_actions := [0]
    previous_text_actions := [""], max_reached := [false], action_masks := [0] }

/-- A trainer state in which agent 7 has one recorded action and a cumulative
environment reward of 5 in the ledger. -/
def ledgerState7 : TrainerState :=
  { step := 0
    stats := []
    collected_rewards := [("environment", fun a => if a = 7 then 5 else 0)]
    training_buffer :=
      { local_buffers := fun a =>
          if a = 7 then { fields := { actions := [1] } } else emptyAgentBuffer
        update_buffer := {} }
    reward_buff_cap := 10
    reward_buffer := []
    episode_steps := fun _ => 0
    cumulative_returns_since_policy_update := [] }

/-- A prior snapshot in which agent 3 is already marked done. -/
def storedDone3 : BrainInfo :=
  { vector_observations := [2], text_observations := [""], rewards := [1]
    agents := [3], local_done := [true], previous_vector_actions := [0]
    previous_text_actions := [""], max_reached := [false], action_masks := [0] }

/-- A one-agent next snapshot for agent 3, not done. -/
def nextInfo3 : BrainInfo :=
  { vector_observations := [4], text_observations := [""], rewards := [2]
    agents := [3], local_done := [false], previous_vector_actions := [0]
    previous_text_actions := [""], max_reached := [false], action_masks := [0] }

/-- A trainer state whose agent 3 stores `storedDone3` as its last snapshot. -/
def storedState3 : TrainerState :=
  { step := 0
    stats := []
    collected_rewards := [("environment", fun _ => 0)]
    training_buffer :=
      { local_buffers := fun a =>
          if a = 3 then
            { last_brain_info := some storedDone3
              last_take_action_outputs := some
                { action := [0], log_probs := [0], value := 0, entropy := 0
                  learning_rate := 0 }
              fields := {} }
          else emptyAgentBuffer
        update_buffer := {} }
    reward_buff_cap := 10
    reward_buffer := []
    episode_steps := fun _ => 0
    cumulative_returns_since_policy_update := [] }

end SACModel

/-! ### Helper lemmas -/

namespace SACModel

theorem getD_map_of_lt {α β : Type} (f : α → β) :
    ∀ (l : List α) (j : Nat) (d : α) (d' : β), j < l.length →
      (l.map f).getD j d' = f (l.getD j d) := by
  intro l
  induction l with
  | nil => intro j d d' h; simp at h
  | cons a t ih =>
    intro j d d' h
    cases j with
    | zero => rfl
    | succ j =>
      simp only [List.map_cons, List.getD_cons_succ]
      exact ih j d d' (by simpa using h)

theorem statsAppend_cons_ne (hd : String × List (Option ℚ))
    (tl : List (String × List (Option ℚ))) (k : String) (v : Option ℚ)
    (h : ¬ hd.1 = k) : statsAppend (hd :: tl) k v = hd :: statsAppend tl k v := by
  unfold statsAppend
  simp only [List.any_cons, decide_eq_true_eq, h, decide_False, Bool.false_or]
  by_cases ht : tl.any (fun p => decide (p.1 = k)) = true
  · simp [ht, h]
  · simp [ht, h]

theorem statsLookup_cons_ne {hd : String × List (Option ℚ)}
    {tl : List (String × List (Option ℚ))} {k : String}
    (h : ¬ hd.1 = k) : statsLookup (hd :: tl) k = statsLookup tl k := by
  unfold statsLookup
  rw [List.find?_cons_of_neg]
  simpa using h

theorem statsLookup_statsAppend_self (s : List (String × List (Option ℚ)))
    (k : String) (v : Option ℚ) :
    statsLookup (statsAppend s k v) k = some ((statsLookup s k).getD [] ++ [v]) := by
  induction s with
  | nil => simp [statsAppend, statsLookup]
  | cons hd tl ih =>
    by_cases h : hd.1 = k
    · unfold statsAppend statsLookup
      simp only [List.any_cons, decide_eq_true_eq, h, decide_True, Bool.true_or, if_true,
        List.map_cons, if_pos h]
      rw [List.find?_cons_of_pos, List.find?_cons_of_pos] <;> simp [h]
    · rw [statsAppend_cons_ne hd tl k v h, statsLookup_cons_ne h, statsLookup_cons_ne h]
      exact ih

theorem statsLookup_map_ne (s : List (String × List (Option ℚ)))
    (k k' : String) (v : Option ℚ) (h : ¬ k = k') :
    statsLookup (s.map (fun p => if p.1 = k' then (p.1, p.2 ++ [v]) else p)) k =
      statsLookup s k := by
  induction s with
  | nil => rfl
  | cons hd tl ih =>
    by_cases hk : hd.1 = k
    · unfold statsLookup
      by_cases hk' : hd.1 = k'
      · exact absurd (hk.symm.trans hk') h
      · simp only [List.map_cons, if_neg hk']
        rw [List.find?_cons_of_pos, List.find?_cons_of_pos] <;> simp [hk]
    · have hmap : statsLookup ((hd :: tl).map
          (fun p => if p.1 = k' then (p.1, p.2 ++ [v]) else p)) k =
          statsLookup (tl.map (fun p => if p.1 = k' then (p.1, p.2 ++ [v]) else p)) k := by
        simp only [List.map_cons]
        by_cases hk' : hd.1 = k'
        · rw [if_pos hk']
          exact statsLookup_cons_ne (by simpa [hk'] using fun hh => h hh.symm)
        · rw [if_neg hk']
          exact statsLookup_cons_ne hk
      rw [hmap, ih, statsLookup_cons_ne hk]

theorem statsLookup_statsAppend_ne (s : List (String × List (Option ℚ)))
    (k k' : String) (v : Option ℚ) (h : ¬ k = k') :
    statsLookup (statsAppend s k' v) k = statsLookup s k := by
  unfold statsAppend
  by_cases ha : s.any (fun p => decide (p.1 = k')) = true
  · rw [if_pos ha]
    exact statsLookup_map_ne s k k' v h
  · rw [if_neg ha]
    unfold statsLookup
    rw [List.find?_append]
    cases hf : s.find? (fun p => decide (p.1 = k)) with
    | some p => simp [hf]
    | none =>
      have h2 : ¬ k' = k := fun e => h e.symm
      simp [hf, List.find?_cons, h2]

end SACModel

/-! ### Claim theorems -/

theorem BC.map_zero_mul (l : List ℚ) :
    l.map (fun r => (0 : ℚ) * r) = List.replicate l.length 0 := by
  induction l with
  | nil => rfl
  | cons a t ih => simp [List.replicate_succ, ih]

/-- C9: for every snapshot pair, `BCTrainer.evaluate` returns the pair
`(scaled, unscaled)` in which `unscaled` is exactly the next snapshot's
reward vector and `scaled` is `0.0` times it, i.e. the all-zero vector of the
same length — the BC reward signal never contributes a nonzero scaled
reward. -/
theorem C9_bc_evaluate_scaled_reward_is_zero (curr next : BC.BrainInfo) :
    BC.evaluate curr next = (next.rewards.map (fun r => 0 * r), next.rewards) ∧
    (BC.evaluate curr next).2 = next.rewards ∧
    (BC.evaluate curr next).1 = List.replicate next.rewards.length 0 ∧
    (BC.evaluate curr next).1.length = (BC.evaluate curr next).2.length := by
  refine ⟨rfl, rfl, ?_, ?_⟩
  · exact BC.map_zero_mul next.rewards
  · simp [BC.evaluate]

/-- C10: whenever the BC trainer's learning rate is at or below zero,
`BCTrainer.update` returns 0 at once, performs no shuffle and no model
update, and leaves the whole trainer state — including `has_updated` and the
demonstration buffer — unchanged. -/
theorem C10_bc_update_noop_when_lr_nonpositive
    (upd : List ℚ → Nat → ℚ × ℚ) (shuffle : List ℚ → List ℚ)
    (st : BC.BCState) (max_batches : Nat) (h : st.current_lr ≤ 0) :
    BC.update upd shuffle st max_batches =
      { ret := some 0, state := st, shuffles := 0, batch_updates := 0 } := by
  unfold BC.update
  rw [if_pos h]

/-- Witness for C10 at a concrete state with learning rate `-1`. -/
theorem C10_witness :
    BC.update (fun _ _ => (0, 0)) id ⟨-1, [1, 2], 1, false⟩ 10 =
      { ret := some 0, state := ⟨-1, [1, 2], 1, false⟩, shuffles := 0,
        batch_updates := 0 } :=
  C10_bc_update_noop_when_lr_nonpositive _ _ _ _ (by norm_num)

/-- C8: constructing the trainer raises `UnityTrainerException` exactly when
`"demo_aided"` is present in `trainer_parameters` but one of `"demo_path"`,
`"demo_strength"`, `"demo_steps"` is missing from it; with all three present,
or with `"demo_aided"` absent, construction succeeds. -/
theorem C8_check_demo_keys_at_construction (cap : Nat) (sigNames : List String)
    (d : Option SACModel.DemoAided) :
    ((∃ e, SACModel.trainerInit cap sigNames d = Except.error e) ↔
      ∃ da, d = some da ∧
        (da.demo_path = none ∨ da.demo_strength = none ∨ da.demo_steps = none)) ∧
    ((∃ st, SACModel.trainerInit cap sigNames d = Except.ok st) ↔
      SACModel.check_demo_keys d = Except.ok ()) := by
  constructor
  · cases d with
    | none =>
      simp [SACModel.trainerInit, SACModel.check_demo_keys]
    | some da =>
      by_cases hp : da.demo_path = none
      · simp only [SACModel.trainerInit, SACModel.check_demo_keys,
          Option.isNone_iff_eq_none, hp]
        simp [hp]
        exact ⟨SACModel.UnityTrainerException.demoKeysMissing, trivial⟩
      · by_cases hs : da.demo_strength = none
        · simp only [SACModel.trainerInit, SACModel.check_demo_keys,
            Option.isNone_iff_eq_none, hp, hs]
          simp [hp, hs]
          exact ⟨SACModel.UnityTrainerException.demoKeysMissing, trivial⟩
        · by_cases ht : da.demo_steps = none
          · simp only [SACModel.trainerInit, SACModel.check_demo_keys,
              Option.isNone_iff_eq_none, hp, hs, ht]
            simp [hp, hs, ht]
            exact ⟨SACModel.UnityTrainerException.demoKeysMissing, trivial⟩
          · simp [SACModel.trainerInit, SACModel.check_demo_keys,
              Option.isNone_iff_eq_none, hp, hs, ht]
  · cases d with
    | none =>
      simp [SACModel.trainerInit, SACModel.check_demo_keys]
    | some da =>
      by_cases hall : da.demo_path.isNone || da.demo_strength.isNone ||
          da.demo_steps.isNone
      · simp [SACModel.trainerInit, SACModel.check_demo_keys, hall]
      · simp [SACModel.trainerInit, SACModel.check_demo_keys, hall]

/-- Witness for C8: a `demo_aided` section missing `demo_path` makes
construction fail, and a complete section constructs successfully. -/
theorem C8_witness :
    (∃ e, SACModel.trainerInit 5 [] (some ⟨none, some 1, some 2⟩) = Except.error e) ∧
    (∃ st, SACModel.trainerInit 5 []
      (some ⟨some "demos.demo", some 1, some 2⟩) = Except.ok st) :=
  ⟨(C8_check_demo_keys_at_construction 5 [] (some ⟨none, some 1, some 2⟩)).1.mpr
      ⟨⟨none, some 1, some 2⟩, rfl, Or.inl rfl⟩,
    (C8_check_demo_keys_at_construction 5 []
        (some ⟨some "demos.demo", some 1, some 2⟩)).2.mpr (by rfl)⟩

/-- C2: `is_ready_update` is true exactly when the update buffer's
`"actions"` field holds at least `batch_size` entries, the step count is a
multiple of `train_interval`, and the step count has reached
`buffer_init_steps`; in the scenario `batch_size = 4`,
`buffer_init_steps = 0`, `train_interval = 1`, with one completed transition
flushed per step it is false at step 3 (3 transitions in the buffer) and
becomes true at step 4 (4 transitions in the buffer). -/
theorem C2_is_ready_update_gate :
    (∀ (params : SACModel.TrainerParams) (st : SACModel.TrainerState),
      SACModel.is_ready_update params st = true ↔
        (params.batch_size ≤ st.training_buffer.update_buffer.actions.length ∧
         st.step % params.train_interval = 0 ∧ params.buffer_init_steps ≤ st.step)) ∧
    (∀ st : SACModel.TrainerState, st.step = 4 →
      st.training_buffer.update_buffer.actions.length = 4 →
      SACModel.is_ready_update SACModel.demoParams st = true) ∧
    (∀ st : SACModel.TrainerState, st.step = 3 →
      st.training_buffer.update_buffer.actions.length = 3 →
      SACModel.is_ready_update SACModel.demoParams st = false) := by
  refine ⟨?_, ?_, ?_⟩
  · intro params st
    simp [SACModel.is_ready_update, and_assoc]
  · intro st h1 h2
    simp [SACModel.is_ready_update, SACModel.demoParams, h1, h2]
  · intro st h1 h2
    simp [SACModel.is_ready_update, SACModel.demoParams, h1, h2]

/-- Witness for C2 at concrete trainer states holding four (resp. three)
flushed transitions at step 4 (resp. 3). -/
theorem C2_witness :
    SACModel.is_ready_update SACModel.demoParams
      (SACModel.stateAtStep 4 [1, 2, 3, 4]) = true ∧
    SACModel.is_ready_update SACModel.demoParams
      (SACModel.stateAtStep 3 [1, 2, 3]) = false :=
  ⟨C2_is_ready_update_gate.2.1 _ rfl rfl, C2_is_ready_update_gate.2.2 _ rfl rfl⟩

namespace SACModel

theorem update_rounds_spec (params : TrainerParams) (cfg : PolicyConfig)
    (po : FieldLists → Nat → Bool → PolicyUpdateResult) (st : TrainerState) :
    ∀ (n : Nat) (ls : LossLists) (c : Nat), ∃ ls',
      update_rounds params cfg po st n (ls, c) =
        Except.ok (ls', c +
          (if params.batch_size ≤ st.training_buffer.update_buffer.actions.length
           then n else 0)) ∧
      (st.training_buffer.update_buffer.actions.length < params.batch_size →
        ls' = ls) := by
  intro n
  induction n with
  | zero =>
    intro ls c
    refine ⟨ls, ?_, fun _ => rfl⟩
    simp [update_rounds]
  | succ n ih =>
    intro ls c
    by_cases hb : params.batch_size ≤ st.training_buffer.update_buffer.actions.length
    · have hnlt : ¬ st.training_buffer.update_buffer.actions.length < params.batch_size :=
        not_lt.mpr hb
      obtain ⟨ls', heq, _⟩ := ih
        (pushLosses
          (po (takeFields params.batch_size st.training_buffer.update_buffer)
            (n_sequences params cfg)
            (decide (st.step % params.target_update_steps = 0))) ls)
        (c + 1)
      refine ⟨ls', ?_, fun hlt => absurd hlt hnlt⟩
      unfold update_rounds
      rw [if_pos hb]
      unfold sample_mini_batch
      rw [if_neg hnlt]
      dsimp only
      rw [heq, if_pos hb, if_pos hb]
      congr 2
      omega
    · have hlt : st.training_buffer.update_buffer.actions.length < params.batch_size :=
        not_le.mp hb
      obtain ⟨ls', heq, hls⟩ := ih ls c
      refine ⟨ls', ?_, ?_⟩
      · unfold update_rounds
        rw [if_neg hb, heq, if_neg hb, if_neg hb]
      · intro h
        exact hls h

theorem foldStatsInner_eq (l : List (String × ℚ)) :
    ∀ st : TrainerState,
      l.foldl (fun s2 p => { s2 with stats := statsAppend s2.stats p.1 (some p.2) }) st =
        { st with stats := l.foldl (fun a p => statsAppend a p.1 (some p.2)) st.stats } := by
  induction l with
  | nil => intro st; rfl
  | cons p t ih =>
    intro st
    simp only [List.foldl_cons]
    rw [ih]

theorem foldSigStats_eq (sigs : List RewardSignal) (su : String → List (String × ℚ)) :
    ∀ st : TrainerState,
      sigs.foldl
        (fun s sig =>
          (su sig.name).foldl
            (fun s2 p => { s2 with stats := statsAppend s2.stats p.1 (some p.2) }) s)
        st =
      { st with stats := (sigs.foldl
          (fun a sig =>
            (su sig.name).foldl (fun a2 p => statsAppend a2 p.1 (some p.2)) a)
          st.stats) } := by
  induction sigs with
  | nil => intro st; rfl
  | cons sig t ih =>
    intro st
    simp only [List.foldl_cons]
    rw [foldStatsInner_eq, ih]

theorem statsLookup_foldAppend_ne (k : String) :
    ∀ (l : List (String × ℚ)) (acc : List (String × List (Option ℚ))),
      (∀ p ∈ l, ¬ p.1 = k) →
      statsLookup (l.foldl (fun a p => statsAppend a p.1 (some p.2)) acc) k =
        statsLookup acc k := by
  intro l
  induction l with
  | nil => intro acc _; rfl
  | cons p t ih =>
    intro acc h
    simp only [List.foldl_cons]
    rw [ih _ (fun q hq => h q (List.mem_cons_of_mem _ hq))]
    exact statsLookup_statsAppend_ne acc k p.1 (some p.2)
      (fun e => h p (List.mem_cons_self _ _) e.symm)

theorem statsLookup_foldSig_ne (k : String) (su : String → List (String × ℚ))
    (h : ∀ name p, p ∈ su name → ¬ p.1 = k) :
    ∀ (sigs : List RewardSignal) (acc : List (String × List (Option ℚ))),
      statsLookup
        (sigs.foldl
          (fun a sig => (su sig.name).foldl (fun a2 p => statsAppend a2 p.1 (some p.2)) a)
          acc) k = statsLookup acc k := by
  intro sigs
  induction sigs with
  | nil => intro acc; rfl
  | cons sig t ih =>
    intro acc
    simp only [List.foldl_cons]
    rw [ih, statsLookup_foldAppend_ne k _ _ (fun p hp => h sig.name p hp)]

theorem updatePost_training_buffer (params : TrainerParams) (sigs : List RewardSignal)
    (su : String → List (String × ℚ)) (losses : LossLists) (st : TrainerState) :
    (updatePost params sigs su losses st).training_buffer.update_buffer =
      (if params.buffer_size < st.training_buffer.update_buffer.actions.length then
        truncate_update_buffer st.training_buffer.update_buffer
          (params.buffer_size * 8 / 10)
      else st.training_buffer.update_buffer) := by
  unfold updatePost
  rw [foldSigStats_eq]

end SACModel

/-- C4: after the update rounds of `update_policy`, whenever the update
buffer's length exceeds `buffer_size` it is truncated to
`int(0.8 * buffer_size)` entries, keeping exactly the most recently appended
entries in their temporal order (a suffix of the original) and evicting the
oldest; immediately after the truncation pass the buffer never exceeds
`buffer_size`. -/
theorem C4_update_buffer_truncation (params : SACModel.TrainerParams)
    (cfg : SACModel.PolicyConfig)
    (po : SACModel.FieldLists → Nat → Bool → SACModel.PolicyUpdateResult)
    (sigs : List SACModel.RewardSignal) (su : String → List (String × ℚ))
    (st : SACModel.TrainerState) :
    ∃ st' calls,
      SACModel.update_policy params cfg po sigs su st = Except.ok (st', calls) ∧
      st'.training_buffer.update_buffer.actions.length ≤ params.buffer_size ∧
      (params.buffer_size < st.training_buffer.update_buffer.actions.length →
        st'.training_buffer.update_buffer.actions =
          st.training_buffer.update_buffer.actions.drop
            (st.training_buffer.update_buffer.actions.length -
              params.buffer_size * 8 / 10) ∧
        st'.training_buffer.update_buffer.actions.length =
          params.buffer_size * 8 / 10) ∧
      (¬ params.buffer_size < st.training_buffer.update_buffer.actions.length →
        st'.training_buffer.update_buffer.actions =
          st.training_buffer.update_buffer.actions) ∧
      List.IsSuffix st'.training_buffer.update_buffer.actions
        st.training_buffer.update_buffer.actions := by
  obtain ⟨ls', hr, _⟩ :=
    SACModel.update_rounds_spec params cfg po st params.num_epoch {} 0
  have hok : SACModel.update_policy params cfg po sigs su st =
      Except.ok (SACModel.updatePost params sigs su ls' st,
        0 + (if params.batch_size ≤ st.training_buffer.update_buffer.actions.length
             then params.num_epoch else 0)) := by
    unfold SACModel.update_policy
    rw [hr]
  have htb := SACModel.updatePost_training_buffer params sigs su ls' st
  refine ⟨_, _, hok, ?_, ?_, ?_, ?_⟩
  · rw [htb]
    by_cases hc : params.buffer_size < st.training_buffer.update_buffer.actions.length
    · rw [if_pos hc]
      show (st.training_buffer.update_buffer.actions.drop
        (st.training_buffer.update_buffer.actions.length -
          params.buffer_size * 8 / 10)).length ≤ params.buffer_size
      rw [List.length_drop]
      omega
    · rw [if_neg hc]
      omega
  · intro hc
    rw [htb, if_pos hc]
    refine ⟨rfl, ?_⟩
    show (st.training_buffer.update_buffer.actions.drop
      (st.training_buffer.update_buffer.actions.length -
        params.buffer_size * 8 / 10)).length = params.buffer_size * 8 / 10
    rw [List.length_drop]
    omega
  · intro hc
    rw [htb, if_neg hc]
  · rw [htb]
    by_cases hc : params.buffer_size < st.training_buffer.update_buffer.actions.length
    · rw [if_pos hc]
      exact ⟨st.training_buffer.update_buffer.actions.take
        (st.training_buffer.update_buffer.actions.length -
          params.buffer_size * 8 / 10), List.take_append_drop _ _⟩
    · rw [if_neg hc]

/-- Witness for C4: a buffer of four actions with `buffer_size = 2` is
truncated to its most recent `int(2 * 0.8) = 1` entry. -/
theorem C4_witness :
    ∃ st' calls,
      SACModel.update_policy ⟨1, 2, 0, 5, 1, 1, 1⟩ SACModel.demoCfg
        (fun _ _ _ => ⟨0, 0, 0, 0, 0⟩) [] (fun _ => [])
        (SACModel.stateAtStep 0 [1, 2, 3, 4]) = Except.ok (st', calls) ∧
      st'.training_buffer.update_buffer.actions = [4] ∧
      st'.training_buffer.update_buffer.actions.length ≤ 2 := by
  obtain ⟨st', calls, hok, hlen, hpos, hneg, hsuf⟩ :=
    C4_update_buffer_truncation ⟨1, 2, 0, 5, 1, 1, 1⟩ SACModel.demoCfg
      (fun _ _ _ => ⟨0, 0, 0, 0, 0⟩) [] (fun _ => [])
      (SACModel.stateAtStep 0 [1, 2, 3, 4])
  obtain ⟨ha, _⟩ := hpos (by decide)
  exact ⟨st', calls, hok, by rw [ha]; decide, hlen⟩

/-- C7: every `update_policy` round samples and invokes the optimizer only
when the update buffer holds at least `batch_size` actions; rounds with
insufficient data are skipped without any error (`update_policy` always
returns `Except.ok`), and when every round is skipped the loss lists stay
empty, so each reported mean loss is the NaN/undefined value (`none`)
appended to the stats sink. -/
theorem C7_update_policy_skip_rounds (params : SACModel.TrainerParams)
    (cfg : SACModel.PolicyConfig)
    (po : SACModel.FieldLists → Nat → Bool → SACModel.PolicyUpdateResult)
    (sigs : List SACModel.RewardSignal) (su : String → List (String × ℚ))
    (st : SACModel.TrainerState)
    (h : ∀ name p, p ∈ su name → ¬ p.1 ∈ SACModel.lossStatKeys) :
    ∃ st' calls,
      SACModel.update_policy params cfg po sigs su st = Except.ok (st', calls) ∧
      calls = (if params.batch_size ≤ st.training_buffer.update_buffer.actions.length
               then params.num_epoch else 0) ∧
      (st.training_buffer.update_buffer.actions.length < params.batch_size →
        ∀ k ∈ SACModel.lossStatKeys,
          SACModel.statsLookup st'.stats k =
            some ((SACModel.statsLookup st.stats k).getD [] ++ [none])) := by
  obtain ⟨ls', hr, hempty⟩ :=
    SACModel.update_rounds_spec params cfg po st params.num_epoch {} 0
  have hok : SACModel.update_policy params cfg po sigs su st =
      Except.ok (SACModel.updatePost params sigs su ls' st,
        0 + (if params.batch_size ≤ st.training_buffer.update_buffer.actions.length
             then params.num_epoch else 0)) := by
    unfold SACModel.update_policy
    rw [hr]
  refine ⟨_, _, hok, by omega, ?_⟩
  intro hlt k hk
  have hls : ls' = {} := hempty hlt
  subst hls
  have h2 : ∀ name p, p ∈ su name → ¬ p.1 = k := by
    intro name p hp e
    exact h name p hp (e ▸ hk)
  simp only [SACModel.updatePost, SACModel.foldSigStats_eq]
  rw [SACModel.statsLookup_foldSig_ne k su h2]
  simp only [SACModel.lossStatKeys, List.mem_cons, List.mem_singleton] at hk
  rcases hk with rfl | rfl | rfl | rfl | rfl | hemp
  rotate_right
  · exact absurd hemp (List.not_mem_nil _)
  · rw [SACModel.statsLookup_statsAppend_ne _ _ _ _ (by decide),
      SACModel.statsLookup_statsAppend_ne _ _ _ _ (by decide),
      SACModel.statsLookup_statsAppend_ne _ _ _ _ (by decide),
      SACModel.statsLookup_statsAppend_ne _ _ _ _ (by decide),
      SACModel.statsLookup_statsAppend_self]
    simp [SACModel.meanOpt]
  · rw [SACModel.statsLookup_statsAppend_ne _ _ _ _ (by decide),
      SACModel.statsLookup_statsAppend_ne _ _ _ _ (by decide),
      SACModel.statsLookup_statsAppend_ne _ _ _ _ (by decide),
      SACModel.statsLookup_statsAppend_self,
      SACModel.statsLookup_statsAppend_ne _ _ _ _ (by decide)]
    simp [SACModel.meanOpt]
  · rw [SACModel.statsLookup_statsAppend_ne _ _ _ _ (by decide),
      SACModel.statsLookup_statsAppend_ne _ _ _ _ (by decide),
      SACModel.statsLookup_statsAppend_self,
      SACModel.statsLookup_statsAppend_ne _ _ _ _ (by decide),
      SACModel.statsLookup_statsAppend_ne _ _ _ _ (by decide)]
    simp [SACModel.meanOpt]
  · rw [SACModel.statsLookup_statsAppend_ne _ _ _ _ (by decide),
      SACModel.statsLookup_statsAppend_self,
      SACModel.statsLookup_statsAppend_ne _ _ _ _ (by decide),
      SACModel.statsLookup_statsAppend_ne _ _ _ _ (by decide),
      SACModel.statsLookup_statsAppend_ne _ _ _ _ (by decide)]
    simp [SACModel.meanOpt]
  · rw [SACModel.statsLookup_statsAppend_self,
      SACModel.statsLookup_statsAppend_ne _ _ _ _ (by decide),
      SACModel.statsLookup_statsAppend_ne _ _ _ _ (by decide),
      SACModel.statsLookup_statsAppend_ne _ _ _ _ (by decide),
      SACModel.statsLookup_statsAppend_ne _ _ _ _ (by decide)]
    simp [SACModel.meanOpt]

/-- Witness for C7: with an empty update buffer and `batch_size = 4`, the
optimizer is invoked zero times, no error is raised, and the reported mean
value loss is the NaN value `none`. -/
theorem C7_witness :
    ∃ st',
      SACModel.update_policy ⟨4, 100, 0, 5, 2, 1, 1⟩ SACModel.demoCfg
        (fun _ _ _ => ⟨0, 0, 0, 0, 0⟩) [] (fun _ => [])
        (SACModel.stateAtStep 0 []) = Except.ok (st', 0) ∧
      SACModel.statsLookup st'.stats "Losses/Value Loss" = some [none] := by
  obtain ⟨st', calls, hok, hcalls, hstats⟩ :=
    C7_update_policy_skip_rounds ⟨4, 100, 0, 5, 2, 1, 1⟩ SACModel.demoCfg
      (fun _ _ _ => ⟨0, 0, 0, 0, 0⟩) [] (fun _ => []) (SACModel.stateAtStep 0 [])
      (by intro name p hp; simp at hp)
  rw [if_neg (by decide)] at hcalls
  subst hcalls
  have hv := hstats (by decide) "Losses/Value Loss" (by decide)
  exact ⟨st', hok, by simpa [SACModel.stateAtStep, SACModel.statsLookup] using hv⟩

namespace SACModel

theorem flushLedgerOnDone_training_buffer (sigs : List RewardSignal) (a : AgentId)
    (st : TrainerState) (name : String) :
    (flushLedgerOnDone sigs a st name).training_buffer = st.training_buffer := by
  unfold flushLedgerOnDone
  by_cases h : name = "environment"
  · rw [if_pos h]
  · rw [if_neg h]

theorem foldl_flushLedger_training_buffer (sigs : List RewardSignal) (a : AgentId) :
    ∀ (names : List String) (st : TrainerState),
      (names.foldl (flushLedgerOnDone sigs a) st).training_buffer = st.training_buffer := by
  intro names
  induction names with
  | nil => intro st; rfl
  | cons n t ih =>
    intro st
    rw [List.foldl_cons, ih, flushLedgerOnDone_training_buffer]

theorem construct_curr_info_slice (tb : AgentId → AgentBuffer) (next : BrainInfo)
    (j : Nat) (hj : j < next.agents.length) :
    sliceAt (construct_curr_info tb next) j =
      sliceAt (lookupLastSnapshot tb next (next.agents.getD j 0))
        ((lookupLastSnapshot tb next (next.agents.getD j 0)).agents.indexOf
          (next.agents.getD j 0)) := by
  simp only [construct_curr_info, sliceAt, List.map_map]
  congr 1 <;> (rw [getD_map_of_lt _ next.agents j 0 _ hj]; rfl)

end SACModel

/-- C3: `process_experiences` visits every index of the next snapshot's agent
list, and flushes that agent's local trajectory into the update buffer if and
only if (the agent's done flag is true OR its recorded action count exceeds
`time_horizon`) AND the action count is positive; immediately after a flush
the agent's local buffer is reset to empty, and a non-flushing visit leaves
the state untouched. -/
theorem C3_process_experiences_flush :
    (∀ (params : SACModel.TrainerParams) (cfg : SACModel.PolicyConfig)
       (sigs : List SACModel.RewardSignal) (st : SACModel.TrainerState)
       (info : SACModel.BrainInfo),
      SACModel.process_experiences params cfg sigs st info =
        (List.range info.agents.length).foldl
          (SACModel.processAgentExperience params cfg sigs info) st) ∧
    (∀ (params : SACModel.TrainerParams) (cfg : SACModel.PolicyConfig)
       (sigs : List SACModel.RewardSignal) (info : SACModel.BrainInfo)
       (st : SACModel.TrainerState) (l : Nat),
      (((info.local_done.getD l false = true ∨
          params.time_horizon <
            (st.training_buffer.local_buffers
              (info.agents.getD l 0)).fields.actions.length) ∧
        0 < (st.training_buffer.local_buffers
              (info.agents.getD l 0)).fields.actions.length) →
        ((SACModel.processAgentExperience params cfg sigs info st l).training_buffer.local_buffers
            (info.agents.getD l 0) = SACModel.emptyAgentBuffer ∧
         (SACModel.processAgentExperience params cfg sigs info st l).training_buffer.update_buffer =
           SACModel.append_update_buffer st.training_buffer.update_buffer
             (st.training_buffer.local_buffers (info.agents.getD l 0)).fields
             cfg.sequence_length)) ∧
      (¬ ((info.local_done.getD l false = true ∨
          params.time_horizon <
            (st.training_buffer.local_buffers
              (info.agents.getD l 0)).fields.actions.length) ∧
        0 < (st.training_buffer.local_buffers
              (info.agents.getD l 0)).fields.actions.length) →
        SACModel.processAgentExperience params cfg sigs info st l = st)) := by
  refine ⟨fun _ _ _ _ _ => rfl, ?_⟩
  intro params cfg sigs info st l
  constructor
  · rintro ⟨h1, h2⟩
    have hcond : ((info.local_done.getD l false ||
        decide (params.time_horizon <
          (st.training_buffer.local_buffers
            (info.agents.getD l 0)).fields.actions.length)) &&
        decide (0 < (st.training_buffer.local_buffers
            (info.agents.getD l 0)).fields.actions.length)) = true := by
      simp only [Bool.and_eq_true, Bool.or_eq_true, decide_eq_true_eq]
      exact ⟨h1, h2⟩
    simp only [SACModel.processAgentExperience]
    rw [if_pos hcond]
    by_cases hd : info.local_done.getD l false = true
    · rw [if_pos hd, SACModel.foldl_flushLedger_training_buffer]
      exact ⟨by simp, rfl⟩
    · rw [if_neg hd]
      exact ⟨by simp, rfl⟩
  · intro hn
    have hcond : ¬ (((info.local_done.getD l false ||
        decide (params.time_horizon <
          (st.training_buffer.local_buffers
            (info.agents.getD l 0)).fields.actions.length)) &&
        decide (0 < (st.training_buffer.local_buffers
            (info.agents.getD l 0)).fields.actions.length)) = true) := by
      simp only [Bool.and_eq_true, Bool.or_eq_true, decide_eq_true_eq]
      exact hn
    simp only [SACModel.processAgentExperience]
    rw [if_neg hcond]

/-- Witness for C3: a done agent with one recorded action is flushed and its
local buffer reset. -/
theorem C3_witness :
    (SACModel.processAgentExperience SACModel.demoParams SACModel.demoCfg []
        SACModel.doneInfo7 SACModel.ledgerState7 0).training_buffer.local_buffers 7 =
      SACModel.emptyAgentBuffer ∧
    (SACModel.processAgentExperience SACModel.demoParams SACModel.demoCfg []
        SACModel.doneInfo7 SACModel.ledgerState7 0).training_buffer.update_buffer =
      SACModel.append_update_buffer SACModel.ledgerState7.training_buffer.update_buffer
        (SACModel.ledgerState7.training_buffer.local_buffers 7).fields
        SACModel.demoCfg.sequence_length :=
  (C3_process_experiences_flush.2 SACModel.demoParams SACModel.demoCfg []
    SACModel.doneInfo7 SACModel.ledgerState7 0).1 ⟨Or.inl (by decide), by decide⟩

/-- C5: `add_experiences` records the last snapshot pair and then visits every
agent of the next snapshot; for an agent whose stored prior snapshot marks it
done at the agent's stored index, the visit appends nothing to any trajectory
field (its whole training buffer is untouched) and increments no reward
ledger entry, even though the agent is present with the same id. -/
theorem C5_done_agent_appends_nothing :
    (∀ (cfg : SACModel.PolicyConfig) (sigs : List SACModel.RewardSignal)
       (st : SACModel.TrainerState) (curr next : SACModel.BrainInfo)
       (tao : SACModel.TakeActionOutputs),
      SACModel.add_experiences cfg sigs st curr next tao =
        next.agents.foldl
          (SACModel.addExperienceForAgent cfg (sigs.map (fun s => s.name))
            (SACModel.evalSignals sigs
              (SACModel.currToUse
                (SACModel.recordPhase curr tao
                  (SACModel.addStatsPhase sigs tao st)).training_buffer.local_buffers
                curr next)
              next)
            next)
          (SACModel.recordPhase curr tao (SACModel.addStatsPhase sigs tao st))) ∧
    (∀ (cfg : SACModel.PolicyConfig) (sigNames : List String)
       (tmp : String → List ℚ × List ℚ) (next : SACModel.BrainInfo)
       (st : SACModel.TrainerState) (agent_id : SACModel.AgentId)
       (stored : SACModel.BrainInfo),
      (st.training_buffer.local_buffers agent_id).last_brain_info = some stored →
      stored.local_done.getD (stored.agents.indexOf agent_id) false = true →
      ((SACModel.addExperienceForAgent cfg sigNames tmp next st agent_id).training_buffer =
         st.training_buffer ∧
       (SACModel.addExperienceForAgent cfg sigNames tmp next st agent_id).collected_rewards =
         st.collected_rewards)) := by
  refine ⟨fun _ _ _ _ _ _ => rfl, ?_⟩
  intro cfg sigNames tmp next st agent_id stored h hdone
  simp only [SACModel.addExperienceForAgent]
  rw [h]
  dsimp only
  rw [if_pos hdone]
  split
  · exact ⟨rfl, rfl⟩
  · exact ⟨rfl, rfl⟩

/-- Witness for C5: agent 3's stored snapshot marks it done, so its visit
changes neither its training buffer nor the reward ledger. -/
theorem C5_witness :
    (SACModel.storedState3.training_buffer.local_buffers 3).last_brain_info =
      some SACModel.storedDone3 ∧
    SACModel.storedDone3.local_done.getD
      (SACModel.storedDone3.agents.indexOf 3) false = true ∧
    ((SACModel.addExperienceForAgent SACModel.demoCfg ["environment"]
        (fun _ => ([], [])) SACModel.nextInfo3 SACModel.storedState3 3).training_buffer =
      SACModel.storedState3.training_buffer ∧
     (SACModel.addExperienceForAgent SACModel.demoCfg ["environment"]
        (fun _ => ([], [])) SACModel.nextInfo3 SACModel.storedState3 3).collected_rewards =
      SACModel.storedState3.collected_rewards) :=
  ⟨by decide, by decide,
    C5_done_agent_appends_nothing.2 SACModel.demoCfg ["environment"]
      (fun _ => ([], [])) SACModel.nextInfo3 SACModel.storedState3 3
      SACModel.storedDone3 (by decide) (by decide)⟩

/-- C6: in `add_experiences`, when the current and next snapshots' agent
lists differ, the snapshot used as "current" for reward evaluation is the
synthetic one of `construct_curr_info`, whose entry for the `j`-th agent of
the next snapshot is that agent's entry from its last recorded snapshot, read
at the agent's index there, falling back to the next snapshot itself when no
snapshot was recorded; when the agent lists are equal the current snapshot is
used unchanged. -/
theorem C6_synthetic_current_snapshot :
    (∀ (cfg : SACModel.PolicyConfig) (sigs : List SACModel.RewardSignal)
       (st : SACModel.TrainerState) (curr next : SACModel.BrainInfo)
       (tao : SACModel.TakeActionOutputs),
      SACModel.add_experiences cfg sigs st curr next tao =
        next.agents.foldl
          (SACModel.addExperienceForAgent cfg (sigs.map (fun s => s.name))
            (SACModel.evalSignals sigs
              (SACModel.currToUse
                (SACModel.recordPhase curr tao
                  (SACModel.addStatsPhase sigs tao st)).training_buffer.local_buffers
                curr next)
              next)
            next)
          (SACModel.recordPhase curr tao (SACModel.addStatsPhase sigs tao st))) ∧
    (∀ (tb : SACModel.AgentId → SACModel.AgentBuffer)
       (curr next : SACModel.BrainInfo), curr.agents = next.agents →
      SACModel.currToUse tb curr next = curr) ∧
    (∀ (tb : SACModel.AgentId → SACModel.AgentBuffer)
       (curr next : SACModel.BrainInfo), curr.agents ≠ next.agents →
      SACModel.currToUse tb curr next = SACModel.construct_curr_info tb next) ∧
    (∀ (tb : SACModel.AgentId → SACModel.AgentBuffer) (next : SACModel.BrainInfo)
       (a : SACModel.AgentId), (tb a).last_brain_info = none →
      SACModel.lookupLastSnapshot tb next a = next) ∧
    (∀ (tb : SACModel.AgentId → SACModel.AgentBuffer) (next : SACModel.BrainInfo)
       (j : Nat), j < next.agents.length →
      SACModel.sliceAt (SACModel.construct_curr_info tb next) j =
        SACModel.sliceAt
          (SACModel.lookupLastSnapshot tb next (next.agents.getD j 0))
          ((SACModel.lookupLastSnapshot tb next (next.agents.getD j 0)).agents.indexOf
            (next.agents.getD j 0))) := by
  refine ⟨fun _ _ _ _ _ _ => rfl, ?_, ?_, ?_, ?_⟩
  · intro tb curr next h
    unfold SACModel.currToUse
    rw [if_neg (by simpa using h)]
  · intro tb curr next h
    unfold SACModel.currToUse
    rw [if_pos h]
  · intro tb next a h
    unfold SACModel.lookupLastSnapshot
    rw [h]
  · exact SACModel.construct_curr_info_slice

/-- Witness for C6 at a one-agent next snapshot with no recorded history:
the synthetic snapshot's entry falls back to the next snapshot's own. -/
theorem C6_witness :
    SACModel.sliceAt
      (SACModel.construct_curr_info (fun _ => SACModel.emptyAgentBuffer)
        SACModel.nextInfo3) 0 =
      SACModel.sliceAt
        (SACModel.lookupLastSnapshot (fun _ => SACModel.emptyAgentBuffer)
          SACModel.nextInfo3 (SACModel.nextInfo3.agents.getD 0 0))
        ((SACModel.lookupLastSnapshot (fun _ => SACModel.emptyAgentBuffer)
            SACModel.nextInfo3 (SACModel.nextInfo3.agents.getD 0 0)).agents.indexOf
          (SACModel.nextInfo3.agents.getD 0 0)) :=
  C6_synthetic_current_snapshot.2.2.2.2 (fun _ => SACModel.emptyAgentBuffer)
    SACModel.nextInfo3 0 (by decide)

/-- C1 (code-bug evidence): in `process_experiences`, when agent 7 completes
an episode with a cumulative environment reward of 5 in the ledger, the
reporting stat and the reporting accumulator receive 5, but the ledger entry
is zeroed before `reward_buffer.appendleft(rewards.get(agent_id, 0))`, so the
recent-reward history receives the post-reset 0 — not the cumulative reward
the claim (and the `reward_buffer` docstring) promise. -/
theorem C1_reward_history_receives_zero :
    SACModel.ledgerLookup SACModel.ledgerState7.collected_rewards "environment" 7 = 5 ∧
    (SACModel.process_experiences SACModel.demoParams SACModel.demoCfg []
        SACModel.ledgerState7 SACModel.doneInfo7).reward_buffer = [0] ∧
    (SACModel.process_experiences SACModel.demoParams SACModel.demoCfg []
        SACModel.ledgerState7 SACModel.doneInfo7).cumulative_returns_since_policy_update =
      [5] ∧
    SACModel.statsLookup
      (SACModel.process_experiences SACModel.demoParams SACModel.demoCfg []
        SACModel.ledgerState7 SACModel.doneInfo7).stats
      "Environment/Cumulative Reward" = some [some 5] ∧
    SACModel.ledgerLookup
      (SACModel.process_experiences SACModel.demoParams SACModel.demoCfg []
        SACModel.ledgerState7 SACModel.doneInfo7).collected_rewards "environment" 7 = 0 := by
  refine ⟨by decide, by decide, by decide, by decide, by decide⟩
